import Mathlib

/-!
Shallow embedding of the starter_django_react_blog repository's
static-asset server (`server.ts`, bundled into the frontend sources),
blog API client (`blogApi`), cookie helpers (`getCookie.ts`),
theme loader (`themeLoader.ts`) and the blog editor's `generateSlug`,
together with theorems settling the specification claims about them.

Byte strings are modelled as `List Nat` with each entry a byte value;
32-bit machine arithmetic is `Nat` arithmetic reduced `% 2^32`.
-/

namespace StarterBlog

/-- Byte strings (Node `Buffer` / `Uint8Array` contents). -/
abbrev Bytes := List Nat

/-! ### MD5 (RFC 1321), as used by Node's `createHash("md5")`.
The asset server computes ETags with `createHash("md5").update(content).digest("hex")`. -/

/-- 2^32, the modulus of 32-bit arithmetic. -/
def M32 : Nat := 4294967296

/-- 32-bit left rotation of `x` (for `x < 2^32`, `0 < s < 32`). -/
def rotl32 (x s : Nat) : Nat :=
  ((x <<< s) % M32) ||| (x >>> (32 - s))

/-- MD5 round function F: `(x & y) | (~x & z)`. -/
def mdF (x y z : Nat) : Nat := (x &&& y) ||| ((x ^^^ 0xffffffff) &&& z)

/-- MD5 round function G: `(x & z) | (y & ~z)`. -/
def mdG (x y z : Nat) : Nat := (x &&& z) ||| (y &&& (z ^^^ 0xffffffff))

/-- MD5 round function H: `x ^ y ^ z`. -/
def mdH (x y z : Nat) : Nat := x ^^^ y ^^^ z

/-- MD5 round function I: `y ^ (x | ~z)`. -/
def mdI (x y z : Nat) : Nat := y ^^^ (x ||| (z ^^^ 0xffffffff))

/-- The MD5 sine-derived constant table `K[0..63]`. -/
def md5K : List Nat :=
  [0xd76aa478, 0xe8c7b756, 0x242070db, 0xc1bdceee,
   0xf57c0faf, 0x4787c62a, 0xa8304613, 0xfd469501,
   0x698098d8, 0x8b44f7af, 0xffff5bb1, 0x895cd7be,
   0x6b901122, 0xfd987193, 0xa679438e, 0x49b40821,
   0xf61e2562, 0xc040b340, 0x265e5a51, 0xe9b6c7aa,
   0xd62f105d, 0x02441453, 0xd8a1e681, 0xe7d3fbc8,
   0x21e1cde6, 0xc33707d6, 0xf4d50d87, 0x455a14ed,
   0xa9e3e905, 0xfcefa3f8, 0x676f02d9, 0x8d2a4c8a,
   0xfffa3942, 0x8771f681, 0x6d9d6122, 0xfde5380c,
   0xa4beea44, 0x4bdecfa9, 0xf6bb4b60, 0xbebfbc70,
   0x289b7ec6, 0xeaa127fa, 0xd4ef3085, 0x04881d05,
   0xd9d4d039, 0xe6db99e5, 0x1fa27cf8, 0xc4ac5665,
   0xf4292244, 0x432aff97, 0xab9423a7, 0xfc93a039,
   0x655b59c3, 0x8f0ccc92, 0xffeff47d, 0x85845dd1,
   0x6fa87e4f, 0xfe2ce6e0, 0xa3014314, 0x4e0811a1,
   0xf7537e82, 0xbd3af235, 0x2ad7d2bb, 0xeb86d391]

/-- The MD5 per-round left-rotation amounts `s[0..63]`. -/
def md5S : List Nat :=
  [7, 12, 17, 22, 7, 12, 17, 22, 7, 12, 17, 22, 7, 12, 17, 22,
   5, 9, 14, 20, 5, 9, 14, 20, 5, 9, 14, 20, 5, 9, 14, 20,
   4, 11, 16, 23, 4, 11, 16, 23, 4, 11, 16, 23, 4, 11, 16, 23,
   6, 10, 15, 21, 6, 10, 15, 21, 6, 10, 15, 21, 6, 10, 15, 21]

/-- Little-endian 8-byte encoding of a 64-bit value. -/
def le8 (n : Nat) : Bytes :=
  [n % 256, n >>> 8 % 256, n >>> 16 % 256, n >>> 24 % 256,
   n >>> 32 % 256, n >>> 40 % 256, n >>> 48 % 256, n >>> 56 % 256]

/-- Little-endian 4-byte encoding of a 32-bit value. -/
def le4 (n : Nat) : Bytes :=
  [n % 256, n >>> 8 % 256, n >>> 16 % 256, n >>> 24 % 256]

/-- MD5 padding: append `0x80`, zero-pad to 56 mod 64, append the
64-bit little-endian bit length. -/
def md5Pad (msg : Bytes) : Bytes :=
  let len := msg.length
  msg ++ [0x80] ++ List.replicate ((119 - len % 64) % 64) 0 ++ le8 ((8 * len) % 2 ^ 64)

/-- Word `j` (little-endian) of 64-byte block `blockIdx` of the padded message. -/
def md5Word (p : Bytes) (blockIdx j : Nat) : Nat :=
  p.getD (64 * blockIdx + 4 * j) 0 +
  256 * p.getD (64 * blockIdx + 4 * j + 1) 0 +
  65536 * p.getD (64 * blockIdx + 4 * j + 2) 0 +
  16777216 * p.getD (64 * blockIdx + 4 * j + 3) 0

/-- The MD5 internal state: four 32-bit words. -/
structure MD5State where
  a : Nat
  b : Nat
  c : Nat
  d : Nat

/-- One of the 64 MD5 operations, on state `st`, round index `i`,
message-word accessor `w`. -/
def md5Round (w : Nat → Nat) (st : MD5State) (i : Nat) : MD5State :=
  let fg : Nat × Nat :=
    if i < 16 then (mdF st.b st.c st.d, i)
    else if i < 32 then (mdG st.b st.c st.d, (5 * i + 1) % 16)
    else if i < 48 then (mdH st.b st.c st.d, (3 * i + 5) % 16)
    else (mdI st.b st.c st.d, (7 * i) % 16)
  let tmp := (st.a + fg.1 + md5K.getD i 0 + w fg.2) % M32
  ⟨st.d, (st.b + rotl32 tmp (md5S.getD i 0)) % M32, st.b, st.c⟩

/-- Process one 64-byte block of the padded message. -/
def md5Block (p : Bytes) (h : MD5State) (blockIdx : Nat) : MD5State :=
  let st := (List.range 64).foldl (md5Round (md5Word p blockIdx)) h
  ⟨(h.a + st.a) % M32, (h.b + st.b) % M32, (h.c + st.c) % M32, (h.d + st.d) % M32⟩

/-- The 16-byte MD5 digest of a byte string. -/
def md5 (msg : Bytes) : Bytes :=
  let p := md5Pad msg
  let h := (List.range (p.length / 64)).foldl (md5Block p)
    ⟨0x67452301, 0xefcdab89, 0x98badcfe, 0x10325476⟩
  le4 h.a ++ le4 h.b ++ le4 h.c ++ le4 h.d

/-- The sixteen lowercase hexadecimal digits. -/
def hexChars : List Char := "0123456789abcdef".toList

/-- Hex digit of a value below 16. -/
def hexChar (n : Nat) : Char := hexChars.getD n '0'

/-- Two lowercase hex digits of a byte. -/
def byteToHex (b : Nat) : List Char := [hexChar (b / 16 % 16), hexChar (b % 16)]

/-- Node's `hash.digest("hex")`: the lowercase-hex rendering of the MD5 digest. -/
def md5Hex (msg : Bytes) : String :=
  String.mk ((md5 msg).foldr (fun b acc => byteToHex b ++ acc) [])

/-! ### The static-asset server (`server.ts`).
The gzip compressor (`Bun.gzipSync`) is an external library; the
definitions are parameterized by it (`gz`). The file system seen at
startup is a `FileSystem` value: the result of `readdir`, per-file
metadata and read results, and the result of reading `index.html`. -/

/-- Constant `var CLIENT_DIR = "."`. -/
def CLIENT_DIR : String := "."

/-- Constant `var MAX_ASSET_SIZE = 5 * 1024 * 1024`. -/
def MAX_ASSET_SIZE : Nat := 5 * 1024 * 1024

/-- Constant `var ENABLE_GZIP = true`. -/
def ENABLE_GZIP : Bool := true

/-- Constant `var ENABLE_ETAGS = true`. -/
def ENABLE_ETAGS : Bool := true

/-- Constant `var GZIP_THRESHOLD = 1024`. -/
def GZIP_THRESHOLD : Nat := 1024

/-- Models `generateETag`: the double-quoted hex MD5 digest of the content. -/
def generateETag (content : Bytes) : String :=
  "\"" ++ md5Hex content ++ "\""

/-- An entry of the server's `assets` map. Memory-tier entries carry
`content` (and possibly `etag`/`gzipped`); disk-tier entries carry
`path` and a `null` content. Absent object fields are `none`. -/
structure Asset where
  content : Option Bytes
  type : String
  etag : Option String
  gzipped : Option Bytes
  path : Option String
deriving DecidableEq

/-- A file as seen by `loadStaticAssets`: its `readdir` relative path,
`Bun.file` existence/size/MIME metadata, and the outcome of reading its
bytes (`file.arrayBuffer()` may reject). -/
structure SrcFile where
  relativePath : String
  fileExists : Bool
  size : Nat
  readContent : Except String Bytes
  mimeType : String

/-- The `assets` JavaScript `Map`, keyed by route. -/
def AssetMap := String → Option Asset

/-- The initial empty `assets` map. -/
def emptyAssets : AssetMap := fun _ => none

/-- Models `assets.set(route, asset)`. -/
def mapSet (m : AssetMap) (k : String) (v : Asset) : AssetMap :=
  fun r => if r = k then some v else m r

/-- Models `file.type || "application/octet-stream"` (empty string is falsy). -/
def typeOrDefault (t : String) : String :=
  if t = "" then "application/octet-stream" else t

/-- The route of a relative path:
`` `/${relativePath.split("\\").join("/")}` ``; splitting on the
single-character separator and re-joining replaces each backslash. -/
def routeOf (rel : String) : String :=
  "/" ++ String.mk (rel.toList.map fun c => if c = '\\' then '/' else c)

/-- Models `join(CLIENT_DIR, relativePath)` (Node `path.join`; joining onto
`"."` yields the relative path itself). -/
def joinPath (dir rel : String) : String :=
  if dir = "." then rel else dir ++ "/" ++ rel

/-- The memory-tier asset built for content `c`: content and type, an
ETag when `ENABLE_ETAGS`, a gzipped variant when `ENABLE_GZIP` and the
content exceeds `GZIP_THRESHOLD`. -/
def memAsset (gz : Bytes → Bytes) (c : Bytes) (t : String) : Asset :=
  { content := some c
    type := typeOrDefault t
    etag := if ENABLE_ETAGS then some (generateETag c) else none
    gzipped := if ENABLE_GZIP ∧ GZIP_THRESHOLD < c.length then some (gz c) else none
    path := none }

/-- The disk-tier asset registered for an oversized file `f`. -/
def diskAsset (f : SrcFile) : Asset :=
  { content := none
    type := typeOrDefault f.mimeType
    etag := none
    gzipped := none
    path := some (joinPath CLIENT_DIR f.relativePath) }

/-- One iteration of the `loadStaticAssets` loop: skip missing or empty
files, load files of size at most `MAX_ASSET_SIZE` into memory
(propagating a read failure), register larger files for lazy disk
reads. -/
def loadStep (gz : Bytes → Bytes) (m : AssetMap) (f : SrcFile) :
    Except String AssetMap :=
  if ¬ f.fileExists ∨ f.size = 0 then .ok m
  else if f.size ≤ MAX_ASSET_SIZE then
    match f.readContent with
    | .error e => .error e
    | .ok c => .ok (mapSet m (routeOf f.relativePath) (memAsset gz c f.mimeType))
  else .ok (mapSet m (routeOf f.relativePath) (diskAsset f))

/-- The `loadStaticAssets` loop over the `readdir` listing, from map `m`. -/
def loadStaticAssetsAux (gz : Bytes → Bytes) (files : List SrcFile)
    (m : AssetMap) : Except String AssetMap :=
  match files with
  | [] => .ok m
  | f :: rest =>
    match loadStep gz m f with
    | .error e => .error e
    | .ok m1 => loadStaticAssetsAux gz rest m1

/-- Models `loadStaticAssets`: fold the loop over the listing, starting from
the empty map. -/
def loadStaticAssets (gz : Bytes → Bytes) (files : List SrcFile) :
    Except String AssetMap :=
  loadStaticAssetsAux gz files emptyAssets

/-- An HTTP request as the server reads it: the URL pathname and the
`accept-encoding` / `if-none-match` headers (`headers.get` yields
`null` for an absent header). -/
structure Request where
  pathname : String
  acceptEncoding : Option String
  ifNoneMatch : Option String

/-- A response body: in-memory bytes, a lazily-read disk file
(`Bun.file(path)`), or HTML text. -/
inductive BodyVal where
  | bytes : Bytes → BodyVal
  | fileRef : String → BodyVal
  | text : String → BodyVal
deriving DecidableEq

/-- An HTTP response: status, body (`null` for 304), headers. -/
structure Response where
  status : Nat
  body : Option BodyVal
  headers : List (String × String)
deriving DecidableEq

/-- JavaScript truthiness of a string-or-absent value: present and
non-empty. -/
def strTruthy : Option String → Bool
  | none => false
  | some s => s ≠ ""

/-- JavaScript `s.includes(pat)`. -/
def strIncludes (s pat : String) : Bool :=
  s.toList.tails.any fun t => pat.toList.isPrefixOf t

/-- Models `serveAsset(request, route)`: look the route up in `assets`
(returning `null` on a miss), answer 304 to a matching `If-None-Match`,
otherwise build the cache headers plus ETag and serve memory content
(gzipped when available and accepted) or a disk file. -/
def serveAsset (assets : AssetMap) (request : Request) (route : String) :
    Option Response :=
  match assets route with
  | none => none
  | some asset =>
    let acceptEncoding := request.acceptEncoding.getD ""
    if ENABLE_ETAGS ∧ strTruthy asset.etag ∧ request.ifNoneMatch = asset.etag then
      some { status := 304, body := none, headers := [] }
    else
      let headers := [("Content-Type", asset.type),
                      ("Cache-Control", "public, max-age=31536000, immutable")]
      let headers := match asset.etag with
        | some e => if e ≠ "" then headers ++ [("ETag", e)] else headers
        | none => headers
      match asset.content with
      | some c =>
        match asset.gzipped with
        | some g =>
          if strIncludes acceptEncoding "gzip" then
            some { status := 200, body := some (.bytes g),
                   headers := headers ++ [("Content-Encoding", "gzip")] }
          else some { status := 200, body := some (.bytes c), headers := headers }
        | none => some { status := 200, body := some (.bytes c), headers := headers }
      | none =>
        match asset.path with
        | some p => some { status := 200, body := some (.fileRef p), headers := headers }
        | none => none

/-- The SPA-shell fallback response: status 200, the `index.html` text
loaded at startup, `Content-Type: text/html`. -/
def spaResponse (indexHtml : String) : Response :=
  { status := 200, body := some (.text indexHtml),
    headers := [("Content-Type", "text/html")] }

/-- The `Bun.serve` fetch handler: serve the asset at the pathname when
`serveAsset` produces a response, else fall through to the SPA shell. -/
def handleFetch (assets : AssetMap) (indexHtml : String) (request : Request) :
    Response :=
  match serveAsset assets request request.pathname with
  | some r => r
  | none => spaResponse indexHtml

/-- The file system observed during startup: the `readdir` listing and
the read of `index.html`, each of which may fail. -/
structure FileSystem where
  readdirResult : Except String (List SrcFile)
  indexHtmlResult : Except String String

/-- Models `parseInt(process.env.PORT || "3000", 10)` with no `PORT` set. -/
def PORT : Nat := 3000

/-- A started server: its port, asset map, and SPA shell. -/
structure Server where
  port : Nat
  assets : AssetMap
  indexHtml : String

/-- Models `startServer`: load the assets, read `index.html`, start `Bun.serve`;
any failure propagates. -/
def startServer (gz : Bytes → Bytes) (fs : FileSystem) : Except String Server :=
  match fs.readdirResult with
  | .error e => .error e
  | .ok files =>
    match loadStaticAssets gz files with
    | .error e => .error e
    | .ok assets =>
      match fs.indexHtmlResult with
      | .error e => .error e
      | .ok indexHtml => .ok { port := PORT, assets := assets, indexHtml := indexHtml }

/-- The outcome of the top-level call: either a running server or a
process exit code. -/
inductive MainOutcome where
  | exitCode : Nat → MainOutcome
  | serving : Server → MainOutcome

/-- Models `startServer().catch(error => { ...; process.exit(1) })`. -/
def runMain (gz : Bytes → Bytes) (fs : FileSystem) : MainOutcome :=
  match startServer gz fs with
  | .error _ => .exitCode 1
  | .ok s => .serving s

/-! ### Cookie helpers (`getCookie.ts`) and the blog API client (`blogApi.ts`).
`decodeURIComponent` is an external library function; the definitions
are parameterized by it. The browser environment (the decode function,
`VITE_PROJECT_NAME`, `document.cookie`) is an `Env` value. -/

/-- Models `import.meta.env.VITE_API_URL || '/api/v1'` with the variable unset. -/
def API_BASE : String := "/api/v1"

/-- The browser environment the client reads: `decodeURIComponent`, the
project name (`VITE_PROJECT_NAME || 'django'`), and `document.cookie`. -/
structure Env where
  decode : String → String
  projectName : String
  documentCookie : String

/-- Models `getCookieName`: `` `${PROJECT_NAME}_${baseName}` ``. -/
def getCookieName (projectName baseName : String) : String :=
  projectName ++ "_" ++ baseName

/-- Models `getCookie`: split `document.cookie` on `';'`, trim each part, and
return the decoded value of the first part starting with `name + '='`. -/
def getCookie (decode : String → String) (documentCookie name : String) :
    Option String :=
  if documentCookie ≠ "" then
    (documentCookie.splitOn ";").findSome? fun raw =>
      let cookie := raw.trim
      if cookie.take (name.length + 1) = name ++ "=" then
        some (decode (cookie.drop (name.length + 1)))
      else none
  else none

/-- Models `getCSRFToken`: the cookie named `` `${PROJECT_NAME}_csrftoken` ``. -/
def getCSRFToken (env : Env) : Option String :=
  getCookie env.decode env.documentCookie (getCookieName env.projectName "csrftoken")

/-- Models `getAuthHeaders`: an `X-CSRFToken` header carrying the CSRF cookie
value, or the empty string when the cookie is absent (`csrfToken || ''`). -/
def getAuthHeaders (env : Env) : List (String × String) :=
  [("X-CSRFToken", (getCSRFToken env).getD "")]

/-- A request body built by the client: multipart `FormData` or a JSON
string. -/
inductive ApiBody where
  | form : ApiBody
  | json : ApiBody
deriving DecidableEq

/-- The argument record of a `fetch` call made by the blog API client. -/
structure FetchArgs where
  url : String
  method : String
  headers : List (String × String)
  credentialsInclude : Bool
  body : Option ApiBody
deriving DecidableEq

/-- Models `incrementViewCount`: `fetch(url, { method: 'POST' })` — no headers. -/
def incrementViewCount (slug : String) : FetchArgs :=
  { url := API_BASE ++ "/blog/posts/" ++ slug ++ "/view/"
    method := "POST"
    headers := []
    credentialsInclude := false
    body := none }

/-- The header branch shared by `createPost` and `updatePost`: bare auth
headers for a `FormData` upload, else `Content-Type: application/json`
spread together with the auth headers. -/
def postWriteHeaders (env : Env) (hasFileUpload : Bool) : List (String × String) :=
  if hasFileUpload then getAuthHeaders env
  else ("Content-Type", "application/json") :: getAuthHeaders env

/-- Models `createPost`: POST `/blog/posts/` with the upload-dependent body and
headers. -/
def createPost (env : Env) (hasFeaturedImage hasOgImage : Bool) : FetchArgs :=
  { url := API_BASE ++ "/blog/posts/"
    method := "POST"
    headers := postWriteHeaders env (hasFeaturedImage || hasOgImage)
    credentialsInclude := true
    body := some (if hasFeaturedImage || hasOgImage then .form else .json) }

/-- Models `updatePost`: PATCH `/blog/posts/{slug}/` with the upload-dependent
body and headers. -/
def updatePost (env : Env) (slug : String) (hasFeaturedImage hasOgImage : Bool) :
    FetchArgs :=
  { url := API_BASE ++ "/blog/posts/" ++ slug ++ "/"
    method := "PATCH"
    headers := postWriteHeaders env (hasFeaturedImage || hasOgImage)
    credentialsInclude := true
    body := some (if hasFeaturedImage || hasOgImage then .form else .json) }

/-- Models `deletePost`: DELETE `/blog/posts/{slug}/` with the auth headers. -/
def deletePost (env : Env) (slug : String) : FetchArgs :=
  { url := API_BASE ++ "/blog/posts/" ++ slug ++ "/"
    method := "DELETE"
    headers := getAuthHeaders env
    credentialsInclude := true
    body := none }

/-- Models `uploadBlogImage`: POST `/blog/upload-image/` with the auth headers
and a `FormData` body. -/
def uploadBlogImage (env : Env) : FetchArgs :=
  { url := API_BASE ++ "/blog/upload-image/"
    method := "POST"
    headers := getAuthHeaders env
    credentialsInclude := true
    body := some .form }

/-- Models `createCategory`: POST `/blog/categories/` with JSON content type and
the auth headers. -/
def createCategory (env : Env) : FetchArgs :=
  { url := API_BASE ++ "/blog/categories/"
    method := "POST"
    headers := ("Content-Type", "application/json") :: getAuthHeaders env
    credentialsInclude := true
    body := some .json }

/-- Models `updateCategory`: PATCH `/blog/categories/{id}/`. -/
def updateCategory (env : Env) (id : Nat) : FetchArgs :=
  { url := API_BASE ++ "/blog/categories/" ++ toString id ++ "/"
    method := "PATCH"
    headers := ("Content-Type", "application/json") :: getAuthHeaders env
    credentialsInclude := true
    body := some .json }

/-- Models `deleteCategory`: DELETE `/blog/categories/{id}/` with the auth
headers. -/
def deleteCategory (env : Env) (id : Nat) : FetchArgs :=
  { url := API_BASE ++ "/blog/categories/" ++ toString id ++ "/"
    method := "DELETE"
    headers := getAuthHeaders env
    credentialsInclude := true
    body := none }

/-- Models `createTag`: POST `/blog/tags/`. -/
def createTag (env : Env) : FetchArgs :=
  { url := API_BASE ++ "/blog/tags/"
    method := "POST"
    headers := ("Content-Type", "application/json") :: getAuthHeaders env
    credentialsInclude := true
    body := some .json }

/-- Models `updateTag`: PATCH `/blog/tags/{id}/`. -/
def updateTag (env : Env) (id : Nat) : FetchArgs :=
  { url := API_BASE ++ "/blog/tags/" ++ toString id ++ "/"
    method := "PATCH"
    headers := ("Content-Type", "application/json") :: getAuthHeaders env
    credentialsInclude := true
    body := some .json }

/-- Models `deleteTag`: DELETE `/blog/tags/{id}/` with the auth headers. -/
def deleteTag (env : Env) (id : Nat) : FetchArgs :=
  { url := API_BASE ++ "/blog/tags/" ++ toString id ++ "/"
    method := "DELETE"
    headers := getAuthHeaders env
    credentialsInclude := true
    body := none }

/-! ### The theme loader (`themeLoader.ts`).
A theme JSON value is modelled by the object fields the loader reads;
an absent field is `none`. Per the repository's theme documentation,
each bundled theme file carries `theme_name`, `display_name` and the
three `cssVars` groups — in particular no `success` field. -/

/-- The `cssVars` object of a theme: the three variable groups, each a
record of CSS variables when present. -/
structure CssVars where
  theme : Option (List (String × String))
  light : Option (List (String × String))
  dark : Option (List (String × String))
deriving DecidableEq

/-- A theme JSON value as the loader reads it. -/
structure ThemeData where
  theme_name : Option String
  name : Option String
  display_name : Option String
  cssVars : Option CssVars
  success : Option Bool
deriving DecidableEq

/-- Models `validateThemeData`: a truthy `theme_name` or `name`, a truthy
`display_name`, and a `cssVars` object with all of `theme`, `light`,
`dark` present. -/
def validateThemeData (d : ThemeData) : Bool :=
  (strTruthy d.theme_name || strTruthy d.name) &&
  strTruthy d.display_name &&
  (match d.cssVars with
   | none => false
   | some v => v.theme.isSome && v.light.isSome && v.dark.isSome)

/-- The first mutation of `normalizeThemeData`: fill `theme_name` from
`name` when the former is falsy (`!themeData.theme_name && themeData.name`). -/
def normalizeThemeName (d : ThemeData) : ThemeData :=
  if ¬ strTruthy d.theme_name ∧ strTruthy d.name then { d with theme_name := d.name }
  else d

/-- The second mutation of `normalizeThemeData`: default `success` to
`true` when it is `undefined`. -/
def normalizeSuccess (d : ThemeData) : ThemeData :=
  if d.success = none then { d with success := some true } else d

/-- Models `normalizeThemeData`: the two mutations in order. -/
def normalizeThemeData (d : ThemeData) : ThemeData :=
  normalizeSuccess (normalizeThemeName d)

/-- Models `THEME_REGISTRY`, keyed by theme name. -/
def Registry := String → Option ThemeData

/-- Models `THEME_REGISTRY[themeName] = ...`. -/
def regSet (r : Registry) (k : String) (v : ThemeData) : Registry :=
  fun n => if n = k then some v else r n

/-- Models `loadThemes`: for each import, insert the normalized data into the
registry when validation passes, else leave the registry unchanged. -/
def loadThemes (imports : List (String × ThemeData)) (registry : Registry) :
    Registry :=
  imports.foldl
    (fun reg p =>
      if validateThemeData p.2 then regSet reg p.1 (normalizeThemeData p.2) else reg)
    registry

/-- Modelled from the spec: the repository's bundled theme JSON files
are not present under `src/`; per the repository's theme documentation
each contains `theme_name`, `display_name` and the three `cssVars`
groups, and in particular no `success` field. Only the absence of
`success` is needed below. -/
abbrev importsHaveNoSuccessField (imports : List (String × ThemeData)) : Prop :=
  ∀ p ∈ imports, (p.2).success = none

/-! ### The blog editor's `generateSlug`.
`title.toLowerCase().replace(/[^a-z0-9]+/g, '-').replace(/^-|-$/g, '')`,
on strings as `List Char`. `String.prototype.toLowerCase` is modelled by
the per-character ASCII lowering `Char.toLower`; this differs from the
Unicode mapping only on characters that the next step replaces by `'-'`
either way (every character outside `[a-z0-9]`). -/

/-- Membership in the regex character class `[a-z0-9]`: code points
97–122 (`a`–`z`) and 48–57 (`0`–`9`). -/
def isSlugChar (c : Char) : Bool :=
  (97 ≤ c.toNat && c.toNat ≤ 122) || (48 ≤ c.toNat && c.toNat ≤ 57)

/-- The character mapping of `toLowerCase` on the ASCII range: `A`–`Z`
(code points 65–90) shift by 32, everything else is fixed. -/
def jsLowerChar (c : Char) : Char :=
  if 65 ≤ c.toNat ∧ c.toNat ≤ 90 then Char.ofNat (c.toNat + 32) else c

/-- Models `title.toLowerCase()`. -/
def jsToLowerCase (s : List Char) : List Char := s.map jsLowerChar

/-- The traversal behind `.replace(/[^a-z0-9]+/g, '-')`: `inRun` records
whether the previous character belonged to a run of characters outside
`[a-z0-9]`; a `'-'` is emitted at the start of each such maximal run. -/
def collapseAux (inRun : Bool) : List Char → List Char
  | [] => []
  | c :: cs =>
    if isSlugChar c then c :: collapseAux false cs
    else if inRun then collapseAux true cs
    else '-' :: collapseAux true cs

/-- Models `.replace(/[^a-z0-9]+/g, '-')`: each maximal run of characters
outside `[a-z0-9]` becomes a single `'-'`. -/
def collapseNonSlug (s : List Char) : List Char :=
  collapseAux false s

/-- The `^-` alternative of `.replace(/^-|-$/g, '')`: remove one leading
hyphen. -/
def dropLeadHyphen : List Char → List Char
  | [] => []
  | c :: rest => if c = '-' then rest else c :: rest

/-- The `-$` alternative of `.replace(/^-|-$/g, '')`: remove one
trailing hyphen. -/
def dropTrailHyphen (s : List Char) : List Char :=
  if s.getLast? = some '-' then s.dropLast else s

/-- Models `generateSlug` from the blog editor. -/
def generateSlug (title : List Char) : List Char :=
  dropTrailHyphen (dropLeadHyphen (collapseNonSlug (jsToLowerCase title)))

/-! ## Theorems -/

/-! ### Lemmas about `generateSlug` -/

theorem isSlugChar_ne_hyphen {c : Char} (h : isSlugChar c = true) : c ≠ '-' := by
  intro hc
  subst hc
  exact absurd h (by decide)

theorem collapseAux_mem {c : Char} :
    ∀ (inRun : Bool) (s : List Char), c ∈ collapseAux inRun s →
      isSlugChar c = true ∨ c = '-' := by
  intro inRun s
  induction s generalizing inRun with
  | nil => intro hc; simp [collapseAux] at hc
  | cons a as ih =>
    intro hc
    by_cases ha : isSlugChar a
    · simp only [collapseAux, if_pos ha, List.mem_cons] at hc
      rcases hc with hc | hc
      · exact Or.inl (hc ▸ ha)
      · exact ih false hc
    · cases inRun with
      | true =>
        simp only [collapseAux, if_neg ha, if_pos rfl] at hc
        exact ih true hc
      | false =>
        simp only [collapseAux, if_neg ha, Bool.false_eq_true, if_false,
          List.mem_cons] at hc
        rcases hc with hc | hc
        · exact Or.inr hc
        · exact ih true hc

theorem collapseAux_true_head {c : Char} :
    ∀ s : List Char, (collapseAux true s).head? = some c → isSlugChar c = true := by
  intro s
  induction s with
  | nil => intro h; simp [collapseAux] at h
  | cons a as ih =>
    intro h
    by_cases ha : isSlugChar a
    · simp only [collapseAux, if_pos ha, List.head?_cons, Option.some.injEq] at h
      exact h ▸ ha
    · simp only [collapseAux, if_neg ha, if_pos rfl] at h
      exact ih h

theorem collapseAux_chain :
    ∀ (inRun : Bool) (s : List Char),
      List.Chain' (fun a b => ¬(a = '-' ∧ b = '-')) (collapseAux inRun s) := by
  intro inRun s
  induction s generalizing inRun with
  | nil => simp [collapseAux]
  | cons a as ih =>
    by_cases ha : isSlugChar a
    · simp only [collapseAux, if_pos ha]
      refine List.chain'_cons'.mpr ⟨?_, ih false⟩
      intro b _ hab
      exact isSlugChar_ne_hyphen ha hab.1
    · cases inRun with
      | true =>
        simp only [collapseAux, if_neg ha, if_pos rfl]
        exact ih true
      | false =>
        simp only [collapseAux, if_neg ha]
        refine List.chain'_cons'.mpr ⟨?_, ih true⟩
        intro b hb hab
        exact isSlugChar_ne_hyphen (collapseAux_true_head as (Option.mem_def.mp hb)) hab.2

theorem dropLeadHyphen_subset {c : Char} {s : List Char}
    (h : c ∈ dropLeadHyphen s) : c ∈ s := by
  cases s with
  | nil => exact h
  | cons a t =>
    by_cases ha : a = '-'
    · simp only [dropLeadHyphen, if_pos ha] at h
      exact List.mem_cons_of_mem a h
    · simpa only [dropLeadHyphen, if_neg ha] using h

theorem dropLeadHyphen_chain {s : List Char}
    (h : List.Chain' (fun a b => ¬(a = '-' ∧ b = '-')) s) :
    List.Chain' (fun a b => ¬(a = '-' ∧ b = '-')) (dropLeadHyphen s) := by
  cases s with
  | nil => exact h
  | cons a t =>
    by_cases ha : a = '-'
    · simp only [dropLeadHyphen, if_pos ha]
      exact (List.chain'_cons'.mp h).2
    · simpa only [dropLeadHyphen, if_neg ha] using h

theorem dropLeadHyphen_head {s : List Char}
    (h : List.Chain' (fun a b => ¬(a = '-' ∧ b = '-')) s) :
    (dropLeadHyphen s).head? ≠ some '-' := by
  cases s with
  | nil => simp [dropLeadHyphen]
  | cons a t =>
    by_cases ha : a = '-'
    · simp only [dropLeadHyphen, if_pos ha]
      intro hh
      rcases t with _ | ⟨b, t'⟩
      · simp at hh
      · simp only [List.head?_cons, Option.some.injEq] at hh
        exact (List.chain'_cons'.mp h).1 b (by simp) ⟨ha, hh⟩
    · simp only [dropLeadHyphen, if_neg ha, List.head?_cons]
      intro hh
      exact ha (Option.some.inj hh)

theorem dropTrailHyphen_eq_reverse (s : List Char) :
    dropTrailHyphen s = (dropLeadHyphen s.reverse).reverse := by
  cases hrev : s.reverse with
  | nil =>
    have hs : s = [] := by simpa using congrArg List.reverse hrev
    subst hs
    simp [dropTrailHyphen, dropLeadHyphen]
  | cons a t =>
    have hs : s = t.reverse ++ [a] := by
      have := congrArg List.reverse hrev
      simpa [List.reverse_cons] using this
    have hlast : s.getLast? = some a := by
      rw [hs]; exact List.getLast?_concat _
    by_cases ha : a = '-'
    · subst ha
      unfold dropTrailHyphen
      rw [if_pos hlast]
      simp only [dropLeadHyphen, if_pos rfl, if_true]
      rw [hs, List.dropLast_concat]
    · have hne : ¬ s.getLast? = some '-' := by
        rw [hlast]; intro hh; exact ha (Option.some.inj hh)
      unfold dropTrailHyphen
      rw [if_neg hne]
      simp only [dropLeadHyphen, if_neg ha]
      rw [List.reverse_cons, ← hs]

theorem hyphen_chain_flip {s : List Char}
    (h : List.Chain' (fun a b => ¬(a = '-' ∧ b = '-')) s) :
    List.Chain' (fun a b => ¬(a = '-' ∧ b = '-')) s.reverse := by
  rw [List.chain'_reverse]
  exact h.imp fun _ _ hab h2 => hab ⟨h2.2, h2.1⟩

theorem dropTrailHyphen_subset {c : Char} {s : List Char}
    (h : c ∈ dropTrailHyphen s) : c ∈ s := by
  rw [dropTrailHyphen_eq_reverse] at h
  rw [List.mem_reverse] at h
  have := dropLeadHyphen_subset h
  rwa [List.mem_reverse] at this

theorem dropTrailHyphen_chain {s : List Char}
    (h : List.Chain' (fun a b => ¬(a = '-' ∧ b = '-')) s) :
    List.Chain' (fun a b => ¬(a = '-' ∧ b = '-')) (dropTrailHyphen s) := by
  rw [dropTrailHyphen_eq_reverse]
  exact hyphen_chain_flip (dropLeadHyphen_chain (hyphen_chain_flip h))

theorem dropTrailHyphen_last {s : List Char}
    (h : List.Chain' (fun a b => ¬(a = '-' ∧ b = '-')) s) :
    (dropTrailHyphen s).getLast? ≠ some '-' := by
  rw [dropTrailHyphen_eq_reverse, List.getLast?_reverse]
  exact dropLeadHyphen_head (hyphen_chain_flip h)

theorem dropTrailHyphen_head {s : List Char}
    (h : s.head? ≠ some '-') : (dropTrailHyphen s).head? ≠ some '-' := by
  unfold dropTrailHyphen
  split
  · cases s with
    | nil => simp
    | cons a t =>
      cases t with
      | nil => simp
      | cons b t' => simpa [List.dropLast] using h
  · exact h

theorem generateSlug_mem {c : Char} {t : List Char}
    (h : c ∈ generateSlug t) : isSlugChar c = true ∨ c = '-' :=
  collapseAux_mem false _ (dropLeadHyphen_subset (dropTrailHyphen_subset h))

theorem generateSlug_chain (t : List Char) :
    List.Chain' (fun a b => ¬(a = '-' ∧ b = '-')) (generateSlug t) :=
  dropTrailHyphen_chain (dropLeadHyphen_chain (collapseAux_chain false _))

theorem generateSlug_head (t : List Char) :
    (generateSlug t).head? ≠ some '-' :=
  dropTrailHyphen_head (dropLeadHyphen_head (collapseAux_chain false _))

theorem generateSlug_last (t : List Char) :
    (generateSlug t).getLast? ≠ some '-' :=
  dropTrailHyphen_last (dropLeadHyphen_chain (collapseAux_chain false _))

theorem jsLowerChar_fix {c : Char} (h : isSlugChar c = true ∨ c = '-') :
    jsLowerChar c = c := by
  rcases h with h | h
  · simp only [isSlugChar, Bool.or_eq_true, Bool.and_eq_true, decide_eq_true_eq] at h
    unfold jsLowerChar
    rw [if_neg (by omega)]
  · subst h; decide

theorem jsToLowerCase_fix {s : List Char}
    (h : ∀ c ∈ s, isSlugChar c = true ∨ c = '-') : jsToLowerCase s = s := by
  induction s with
  | nil => rfl
  | cons a t ih =>
    have : jsToLowerCase (a :: t) = jsLowerChar a :: jsToLowerCase t := rfl
    rw [this, jsLowerChar_fix (h a (by simp)), ih fun c hc => h c (List.mem_cons_of_mem a hc)]

theorem collapseAux_fix :
    ∀ s : List Char, (∀ c ∈ s, isSlugChar c = true ∨ c = '-') →
      List.Chain' (fun a b => ¬(a = '-' ∧ b = '-')) s →
      collapseAux false s = s ∧ (s.head? ≠ some '-' → collapseAux true s = s) := by
  intro s
  induction s with
  | nil => intro _ _; exact ⟨rfl, fun _ => rfl⟩
  | cons a t ih =>
    intro hmem hchain
    have hmt : ∀ c ∈ t, isSlugChar c = true ∨ c = '-' :=
      fun c hc => hmem c (List.mem_cons_of_mem a hc)
    have hct := (List.chain'_cons'.mp hchain).2
    have iht := ih hmt hct
    by_cases ha : isSlugChar a
    · constructor
      · simp only [collapseAux, if_pos ha, iht.1]
      · intro _; simp only [collapseAux, if_pos ha, iht.1]
    · have ha' : a = '-' := by
        rcases hmem a (by simp) with h | h
        · exact absurd h ha
        · exact h
      subst ha'
      have hth : t.head? ≠ some '-' := by
        intro hh
        rcases t with _ | ⟨b, t'⟩
        · simp at hh
        · simp only [List.head?_cons, Option.some.injEq] at hh
          exact (List.chain'_cons'.mp hchain).1 b (by simp) ⟨rfl, hh⟩
      constructor
      · simp [collapseAux, ha, iht.2 hth]
      · intro hh
        simp at hh

theorem dropLeadHyphen_fix {s : List Char} (h : s.head? ≠ some '-') :
    dropLeadHyphen s = s := by
  cases s with
  | nil => rfl
  | cons a t =>
    have ha : ¬ a = '-' := by
      intro hh; exact h (by rw [hh]; rfl)
    simp only [dropLeadHyphen, if_neg ha]

theorem dropTrailHyphen_fix {s : List Char} (h : s.getLast? ≠ some '-') :
    dropTrailHyphen s = s := by
  unfold dropTrailHyphen
  rw [if_neg h]

/-- C10: every `generateSlug` output consists of characters of
`[a-z0-9]` and hyphens, has no two adjacent hyphens, starts and ends
with a non-hyphen, and `generateSlug` is idempotent. -/
theorem claim_C10_generateSlug (t : List Char) :
    (∀ c ∈ generateSlug t, isSlugChar c = true ∨ c = '-') ∧
    List.Chain' (fun a b => ¬(a = '-' ∧ b = '-')) (generateSlug t) ∧
    (generateSlug t).head? ≠ some '-' ∧
    (generateSlug t).getLast? ≠ some '-' ∧
    generateSlug (generateSlug t) = generateSlug t := by
  refine ⟨fun c hc => generateSlug_mem hc, generateSlug_chain t,
    generateSlug_head t, generateSlug_last t, ?_⟩
  have hmem : ∀ c ∈ generateSlug t, isSlugChar c = true ∨ c = '-' :=
    fun c hc => generateSlug_mem hc
  have hchain := generateSlug_chain t
  have hstep : generateSlug (generateSlug t) =
      dropTrailHyphen (dropLeadHyphen (collapseNonSlug (jsToLowerCase (generateSlug t)))) := rfl
  rw [hstep, jsToLowerCase_fix hmem]
  show dropTrailHyphen (dropLeadHyphen (collapseAux false (generateSlug t))) = _
  rw [(collapseAux_fix _ hmem hchain).1,
    dropLeadHyphen_fix (generateSlug_head t),
    dropTrailHyphen_fix (generateSlug_last t)]

/-! ### Lemmas about the asset server -/

theorem generateETag_ne_empty (c : Bytes) : generateETag c ≠ "" := by
  intro h
  have hd := congrArg String.data h
  simp [generateETag] at hd

theorem memAsset_def (gz : Bytes → Bytes) (c : Bytes) (t : String) :
    memAsset gz c t =
      { content := some c
        type := typeOrDefault t
        etag := some (generateETag c)
        gzipped := if GZIP_THRESHOLD < c.length then some (gz c) else none
        path := none } := by
  simp [memAsset, ENABLE_ETAGS, ENABLE_GZIP]

theorem loadStep_ok {gz : Bytes → Bytes} {m m1 : AssetMap} {f : SrcFile}
    (h : loadStep gz m f = .ok m1) :
    (m1 = m ∧ (¬ f.fileExists = true ∨ f.size = 0)) ∨
    (∃ c, f.readContent = .ok c ∧ f.fileExists = true ∧ f.size ≠ 0 ∧
      f.size ≤ MAX_ASSET_SIZE ∧
      m1 = mapSet m (routeOf f.relativePath) (memAsset gz c f.mimeType)) ∨
    (f.fileExists = true ∧ f.size ≠ 0 ∧ MAX_ASSET_SIZE < f.size ∧
      m1 = mapSet m (routeOf f.relativePath) (diskAsset f)) := by
  unfold loadStep at h
  split at h
  · rename_i hskip
    exact Or.inl ⟨(Except.ok.inj h).symm, hskip⟩
  · rename_i hrun
    push_neg at hrun
    split at h
    · rename_i hsize
      split at h
      · cases h
      · rename_i c hread
        exact Or.inr (Or.inl ⟨c, hread, hrun.1, hrun.2, hsize, (Except.ok.inj h).symm⟩)
    · rename_i hsize
      push_neg at hsize
      exact Or.inr (Or.inr ⟨hrun.1, hrun.2, hsize, (Except.ok.inj h).symm⟩)

theorem loadAux_frame {gz : Bytes → Bytes} :
    ∀ (files : List SrcFile) (m0 m : AssetMap) (r : String),
    loadStaticAssetsAux gz files m0 = .ok m →
    (∀ f ∈ files, routeOf f.relativePath ≠ r) → m r = m0 r := by
  intro files
  induction files with
  | nil =>
    intro m0 m r h _
    rw [← Except.ok.inj h]
  | cons f rest ih =>
    intro m0 m r h hr
    unfold loadStaticAssetsAux at h
    cases hstep : loadStep gz m0 f with
    | error e => rw [hstep] at h; cases h
    | ok m1 =>
      rw [hstep] at h
      have hne : routeOf f.relativePath ≠ r := hr f (List.mem_cons_self f rest)
      have hm1 : m1 r = m0 r := by
        rcases loadStep_ok hstep with ⟨he, _⟩ | ⟨c, _, _, _, _, he⟩ | ⟨_, _, _, he⟩
        · rw [he]
        · rw [he]; simp only [mapSet]; exact if_neg fun hh => hne hh.symm
        · rw [he]; simp only [mapSet]; exact if_neg fun hh => hne hh.symm
      rw [ih m1 m r h fun g hg => hr g (List.mem_cons_of_mem f hg), hm1]

theorem loadAux_shape {gz : Bytes → Bytes} :
    ∀ (files : List SrcFile) (m0 m : AssetMap),
    loadStaticAssetsAux gz files m0 = .ok m →
    (∀ r a, m0 r = some a →
      (∃ c t, a = memAsset gz c t) ∨ (∃ f, a = diskAsset f)) →
    ∀ r a, m r = some a →
      (∃ c t, a = memAsset gz c t) ∨ (∃ f, a = diskAsset f) := by
  intro files
  induction files with
  | nil =>
    intro m0 m h h0
    rw [← Except.ok.inj h]
    exact h0
  | cons f rest ih =>
    intro m0 m h h0
    unfold loadStaticAssetsAux at h
    cases hstep : loadStep gz m0 f with
    | error e => rw [hstep] at h; cases h
    | ok m1 =>
      rw [hstep] at h
      refine ih m1 m h ?_
      intro r a ha
      rcases loadStep_ok hstep with ⟨he, _⟩ | ⟨c, _, _, _, _, he⟩ | ⟨_, _, _, he⟩
      · exact h0 r a (he ▸ ha)
      · rw [he] at ha
        unfold mapSet at ha
        split at ha
        · exact Or.inl ⟨c, f.mimeType, (Option.some.inj ha).symm⟩
        · exact h0 r a ha
      · rw [he] at ha
        unfold mapSet at ha
        split at ha
        · exact Or.inr ⟨f, (Option.some.inj ha).symm⟩
        · exact h0 r a ha

theorem serveAsset_disk {assets : AssetMap} {request : Request} {route : String}
    {f : SrcFile} (h : assets route = some (diskAsset f)) :
    serveAsset assets request route = some
      { status := 200
        body := some (.fileRef (joinPath CLIENT_DIR f.relativePath))
        headers := [("Content-Type", typeOrDefault f.mimeType),
                    ("Cache-Control", "public, max-age=31536000, immutable")] } := by
  simp [serveAsset, h, diskAsset, strTruthy]

theorem serveAsset_mem_304 {assets : AssetMap} {request : Request} {route : String}
    {gz : Bytes → Bytes} {c : Bytes} {t : String}
    (h : assets route = some (memAsset gz c t))
    (hm : request.ifNoneMatch = some (generateETag c)) :
    serveAsset assets request route =
      some { status := 304, body := none, headers := [] } := by
  simp [serveAsset, h, memAsset_def, strTruthy, ENABLE_ETAGS, hm, generateETag_ne_empty c]

theorem serveAsset_mem_200_gzip {assets : AssetMap} {request : Request} {route : String}
    {gz : Bytes → Bytes} {c : Bytes} {t : String}
    (h : assets route = some (memAsset gz c t))
    (hm : request.ifNoneMatch ≠ some (generateETag c))
    (hlen : GZIP_THRESHOLD < c.length)
    (hacc : strIncludes (request.acceptEncoding.getD "") "gzip" = true) :
    serveAsset assets request route = some
      { status := 200
        body := some (.bytes (gz c))
        headers := [("Content-Type", typeOrDefault t),
                    ("Cache-Control", "public, max-age=31536000, immutable"),
                    ("ETag", generateETag c),
                    ("Content-Encoding", "gzip")] } := by
  simp [serveAsset, h, memAsset_def, strTruthy, ENABLE_ETAGS, hm, generateETag_ne_empty c,
    if_pos hlen, hacc]

theorem serveAsset_mem_200_id {assets : AssetMap} {request : Request} {route : String}
    {gz : Bytes → Bytes} {c : Bytes} {t : String}
    (h : assets route = some (memAsset gz c t))
    (hm : request.ifNoneMatch ≠ some (generateETag c))
    (hng : c.length ≤ GZIP_THRESHOLD ∨
      strIncludes (request.acceptEncoding.getD "") "gzip" = false) :
    serveAsset assets request route = some
      { status := 200
        body := some (.bytes c)
        headers := [("Content-Type", typeOrDefault t),
                    ("Cache-Control", "public, max-age=31536000, immutable"),
                    ("ETag", generateETag c)] } := by
  rcases hng with hng | hng
  · simp [serveAsset, h, memAsset_def, strTruthy, ENABLE_ETAGS, hm, generateETag_ne_empty c,
      if_neg (by omega : ¬ GZIP_THRESHOLD < c.length)]
  · simp [serveAsset, h, memAsset_def, strTruthy, ENABLE_ETAGS, hm, generateETag_ne_empty c, hng]
    split <;> rfl

/-- C9: every 200 response built by `serveAsset` carries the immutable
cache-control header, and every 304 response has an empty body and no
headers at all. -/
theorem claim_C9_response_headers (assets : AssetMap) (request : Request)
    (route : String) (r : Response)
    (h : serveAsset assets request route = some r) :
    (r.status = 200 ∨ r.status = 304) ∧
    (r.status = 200 →
      ("Cache-Control", "public, max-age=31536000, immutable") ∈ r.headers) ∧
    (r.status = 304 → r.body = none ∧ r.headers = []) := by
  unfold serveAsset at h
  cases hl : assets route with
  | none => rw [hl] at h; cases h
  | some asset =>
    rw [hl] at h
    simp only at h
    split at h
    · have hr := Option.some.inj h
      subst hr
      exact ⟨Or.inr rfl, fun h200 => absurd h200 (by decide), fun _ => ⟨rfl, rfl⟩⟩
    · have hcc : ("Cache-Control", "public, max-age=31536000, immutable") ∈
          (match asset.etag with
            | some e =>
              if e ≠ "" then
                [("Content-Type", asset.type),
                 ("Cache-Control", "public, max-age=31536000, immutable")] ++ [("ETag", e)]
              else
                [("Content-Type", asset.type),
                 ("Cache-Control", "public, max-age=31536000, immutable")]
            | none =>
              [("Content-Type", asset.type),
               ("Cache-Control", "public, max-age=31536000, immutable")]) := by
        cases asset.etag with
        | none => simp
        | some e => by_cases he : e = "" <;> simp [he]
      split at h
      · split at h
        · split at h
          · have hr := Option.some.inj h
            subst hr
            exact ⟨Or.inl rfl, fun _ => List.mem_append_left _ hcc,
              fun h304 => by simp at h304⟩
          · have hr := Option.some.inj h
            subst hr
            exact ⟨Or.inl rfl, fun _ => hcc, fun h304 => by simp at h304⟩
        · have hr := Option.some.inj h
          subst hr
          exact ⟨Or.inl rfl, fun _ => hcc, fun h304 => by simp at h304⟩
      · split at h
        · have hr := Option.some.inj h
          subst hr
          exact ⟨Or.inl rfl, fun _ => hcc, fun h304 => by simp at h304⟩
        · cases h

/-- C7: a failure of the `readdir` listing, of an asset read during
`loadStaticAssets`, or of the `index.html` read propagates out of
`startServer`; the top-level catch then exits with code 1 and no server
is ever started. -/
theorem claim_C7_startup_failure (gz : Bytes → Bytes) (fs : FileSystem) :
    (∀ e, fs.readdirResult = .error e → startServer gz fs = .error e) ∧
    (∀ files e, fs.readdirResult = .ok files →
      loadStaticAssets gz files = .error e → startServer gz fs = .error e) ∧
    (∀ files m e, fs.readdirResult = .ok files →
      loadStaticAssets gz files = .ok m → fs.indexHtmlResult = .error e →
      startServer gz fs = .error e) ∧
    (∀ e, startServer gz fs = .error e →
      runMain gz fs = .exitCode 1 ∧ ∀ s, runMain gz fs ≠ .serving s) := by
  refine ⟨?_, ?_, ?_, ?_⟩
  · intro e h1
    simp [startServer, h1]
  · intro files e h1 h2
    simp [startServer, h1, h2]
  · intro files m e h1 h2 h3
    simp [startServer, h1, h2, h3]
  · intro e h
    unfold runMain
    rw [h]
    exact ⟨rfl, fun s hs => by cases hs⟩

/-- Witness for C7: a failing `readdir` yields exit code 1. -/
theorem claim_C7_witness :
    startServer (fun b => b) ⟨.error "ENOENT", .ok ""⟩ = .error "ENOENT" ∧
    runMain (fun b => b) ⟨.error "ENOENT", .ok ""⟩ = .exitCode 1 := by
  have h := claim_C7_startup_failure (fun b => b) ⟨.error "ENOENT", .ok ""⟩
  have h1 := h.1 "ENOENT" rfl
  exact ⟨h1, (h.2.2.2 "ENOENT" h1).1⟩

set_option maxRecDepth 100000 in
/-- Witness for C9: the identity 200 response for a small in-memory
asset carries the cache-control header. -/
theorem claim_C9_witness :
    (200 = 200 ∨ 200 = 304) ∧
    ((200 : Nat) = 200 →
      ("Cache-Control", "public, max-age=31536000, immutable") ∈
        [(("Content-Type" : String), ("text/javascript" : String)),
         ("Cache-Control", "public, max-age=31536000, immutable"),
         ("ETag", "\"0cc175b9c0f1b6a831c399e269772661\"")]) ∧
    ((200 : Nat) = 304 →
      (some (BodyVal.bytes [97]) : Option BodyVal) = none ∧
      ([(("Content-Type" : String), ("text/javascript" : String)),
        ("Cache-Control", "public, max-age=31536000, immutable"),
        ("ETag", "\"0cc175b9c0f1b6a831c399e269772661\"")] :
          List (String × String)) = []) := by
  have h := claim_C9_response_headers
    (mapSet emptyAssets (routeOf "app.js")
      (memAsset (fun b => b) [97] "text/javascript"))
    ⟨"/app.js", none, none⟩ "/app.js"
    { status := 200
      body := some (.bytes [97])
      headers := [("Content-Type", "text/javascript"),
                  ("Cache-Control", "public, max-age=31536000, immutable"),
                  ("ETag", "\"0cc175b9c0f1b6a831c399e269772661\"")] }
    (by decide)
  exact h

theorem mapSet_lookup_eq {m : AssetMap} {k v r} (h : r = k) :
    mapSet m k v r = some v := by
  unfold mapSet
  rw [if_pos h]

/-! ### Hex digest lemmas -/

theorem hexChar_mem (n : Nat) : hexChar n ∈ hexChars := by
  unfold hexChar
  by_cases h : n < hexChars.length
  · rw [List.getD_eq_getElem _ _ h]
    exact List.getElem_mem h
  · rw [List.getD_eq_default _ _ (Nat.le_of_not_lt h)]
    decide

theorem md5Hex_chars (msg : Bytes) :
    ∀ ch ∈ (md5Hex msg).toList, ch ∈ hexChars := by
  intro ch hch
  have hlist : (md5Hex msg).toList =
      (md5 msg).foldr (fun b acc => byteToHex b ++ acc) [] := rfl
  rw [hlist] at hch
  generalize md5 msg = l at hch
  induction l with
  | nil => simp at hch
  | cons b bs ih =>
    rw [List.foldr_cons] at hch
    rcases List.mem_append.mp hch with hh | hh
    · unfold byteToHex at hh
      rcases List.mem_cons.mp hh with rfl | hh
      · exact hexChar_mem _
      · rcases List.mem_cons.mp hh with rfl | hh
        · exact hexChar_mem _
        · simp at hh
    · exact ih hh

/-! ### Per-file registration during `loadStaticAssets` -/

theorem loadAux_lookup {gz : Bytes → Bytes} :
    ∀ (files : List SrcFile) (m0 m : AssetMap) (f : SrcFile),
    loadStaticAssetsAux gz files m0 = .ok m →
    f ∈ files →
    (files.map fun g => routeOf g.relativePath).Nodup →
    m0 (routeOf f.relativePath) = none →
    (f.fileExists = true → f.size ≠ 0 → f.size ≤ MAX_ASSET_SIZE →
      ∃ c, f.readContent = .ok c ∧
        m (routeOf f.relativePath) = some (memAsset gz c f.mimeType)) ∧
    (f.fileExists = true → f.size ≠ 0 → MAX_ASSET_SIZE < f.size →
      m (routeOf f.relativePath) = some (diskAsset f)) ∧
    ((f.fileExists = false ∨ f.size = 0) → m (routeOf f.relativePath) = none) := by
  intro files
  induction files with
  | nil => intro m0 m f _ hf; cases hf
  | cons g rest ih =>
    intro m0 m f h hf hnd h0
    unfold loadStaticAssetsAux at h
    cases hstep : loadStep gz m0 g with
    | error e => rw [hstep] at h; cases h
    | ok m1 =>
      rw [hstep] at h
      rw [List.map_cons, List.nodup_cons] at hnd
      rcases List.mem_cons.mp hf with rfl | hf'
      · have hrest : ∀ g' ∈ rest, routeOf g'.relativePath ≠ routeOf f.relativePath := by
          intro g' hg' he
          exact hnd.1 (he ▸ List.mem_map_of_mem _ hg')
        have hm : m (routeOf f.relativePath) = m1 (routeOf f.relativePath) :=
          loadAux_frame rest m1 m _ h hrest
        rcases loadStep_ok hstep with ⟨he, hskip⟩ | ⟨c, hread, hex, hsz, hle, he⟩ |
          ⟨hex, hsz, hgt, he⟩
        · refine ⟨?_, ?_, ?_⟩
          · intro hex hsz _
            rcases hskip with hs | hs
            · exact absurd hex hs
            · exact absurd hs hsz
          · intro hex hsz _
            rcases hskip with hs | hs
            · exact absurd hex hs
            · exact absurd hs hsz
          · intro _
            rw [hm, he, h0]
        · refine ⟨?_, ?_, ?_⟩
          · intro _ _ _
            refine ⟨c, hread, ?_⟩
            rw [hm, he]
            simp [mapSet]
          · intro _ _ hgt
            omega
          · intro hsk
            rcases hsk with hs | hs
            · rw [hex] at hs; cases hs
            · exact absurd hs hsz
        · refine ⟨?_, ?_, ?_⟩
          · intro _ _ hle
            omega
          · intro _ _ _
            rw [hm, he]
            simp [mapSet]
          · intro hsk
            rcases hsk with hs | hs
            · rw [hex] at hs; cases hs
            · exact absurd hs hsz
      · have hne : routeOf g.relativePath ≠ routeOf f.relativePath := by
          intro he
          exact hnd.1 (he ▸ List.mem_map_of_mem _ hf')
        have h1 : m1 (routeOf f.relativePath) = none := by
          rcases loadStep_ok hstep with ⟨he, _⟩ | ⟨c, _, _, _, _, he⟩ | ⟨_, _, _, he⟩
          · rw [he, h0]
          · rw [he]; simp only [mapSet]; rw [if_neg fun hh => hne hh.symm, h0]
          · rw [he]; simp only [mapSet]; rw [if_neg fun hh => hne hh.symm, h0]
        exact ih m1 m f h hf' hnd.2 h1

/-- C1: the fetch handler's algorithm: a pathname registered in the
asset map is served by `serveAsset` (from memory, or from the
registered disk path when the content is `null`); an unregistered
pathname falls through to the 200 / `index.html` / `text/html` SPA
shell. -/
theorem claim_C1_fetch_algorithm (gz : Bytes → Bytes) (files : List SrcFile)
    (m : AssetMap) (indexHtml : String) (request : Request)
    (h : loadStaticAssets gz files = .ok m) :
    (m request.pathname = none →
      handleFetch m indexHtml request =
        { status := 200, body := some (.text indexHtml),
          headers := [("Content-Type", "text/html")] }) ∧
    (∀ a, m request.pathname = some a →
      ∃ r, serveAsset m request request.pathname = some r ∧
        handleFetch m indexHtml request = r ∧
        (∀ c, a.content = some c →
          r.status = 304 ∨ (r.status = 200 ∧ (r.body = some (.bytes c) ∨
            ∃ g, a.gzipped = some g ∧ r.body = some (.bytes g)))) ∧
        (a.content = none →
          ∃ p, a.path = some p ∧ r.status = 200 ∧ r.body = some (.fileRef p))) := by
  constructor
  · intro hnone
    have hs : serveAsset m request request.pathname = none := by
      unfold serveAsset
      rw [hnone]
    unfold handleFetch
    rw [hs]
    rfl
  · intro a ha
    have hshape := loadAux_shape files emptyAssets m h
      (by intro r a' h0; simp [emptyAssets] at h0)
    rcases hshape request.pathname a ha with ⟨c, t, rfl⟩ | ⟨f, rfl⟩
    · by_cases hm : request.ifNoneMatch = some (generateETag c)
      · refine ⟨_, serveAsset_mem_304 ha hm, ?_, ?_, ?_⟩
        · unfold handleFetch
          rw [serveAsset_mem_304 ha hm]
        · intro c' _
          exact Or.inl rfl
        · intro hc0
          rw [memAsset_def] at hc0
          simp at hc0
      · by_cases hg : GZIP_THRESHOLD < c.length ∧
            strIncludes (request.acceptEncoding.getD "") "gzip" = true
        · refine ⟨_, serveAsset_mem_200_gzip ha hm hg.1 hg.2, ?_, ?_, ?_⟩
          · unfold handleFetch
            rw [serveAsset_mem_200_gzip ha hm hg.1 hg.2]
          · intro c' _
            refine Or.inr ⟨rfl, Or.inr ⟨gz c, ?_, rfl⟩⟩
            rw [memAsset_def]
            simp [if_pos hg.1]
          · intro hc0
            rw [memAsset_def] at hc0
            simp at hc0
        · have hng : c.length ≤ GZIP_THRESHOLD ∨
              strIncludes (request.acceptEncoding.getD "") "gzip" = false := by
            rcases Nat.lt_or_ge GZIP_THRESHOLD c.length with h1 | h1
            · right
              cases hB : strIncludes (request.acceptEncoding.getD "") "gzip"
              · rfl
              · exact absurd ⟨h1, hB⟩ hg
            · left
              omega
          refine ⟨_, serveAsset_mem_200_id ha hm hng, ?_, ?_, ?_⟩
          · unfold handleFetch
            rw [serveAsset_mem_200_id ha hm hng]
          · intro c' hc'
            have : c' = c := by
              rw [memAsset_def] at hc'
              simpa using hc'.symm
            subst this
            exact Or.inr ⟨rfl, Or.inl rfl⟩
          · intro hc0
            rw [memAsset_def] at hc0
            simp at hc0
    · refine ⟨_, serveAsset_disk ha, ?_, ?_, ?_⟩
      · unfold handleFetch
        rw [serveAsset_disk ha]
      · intro c' hc'
        simp [diskAsset] at hc'
      · intro _
        exact ⟨joinPath CLIENT_DIR f.relativePath, rfl, rfl, rfl⟩

set_option maxRecDepth 100000 in
/-- Witness for C1: an unregistered pathname receives the SPA shell. -/
theorem claim_C1_witness :
    handleFetch
      (mapSet emptyAssets (routeOf "app.js")
        (memAsset (fun b => b) [97] "text/javascript"))
      "<html>hi</html>" ⟨"/nope", none, none⟩ =
      { status := 200, body := some (.text "<html>hi</html>"),
        headers := [("Content-Type", "text/html")] } :=
  (claim_C1_fetch_algorithm (fun b => b)
    [⟨"app.js", true, 1, .ok [97], "text/javascript"⟩]
    (mapSet emptyAssets (routeOf "app.js")
      (memAsset (fun b => b) [97] "text/javascript"))
    "<html>hi</html>" ⟨"/nope", none, none⟩ rfl).1 (by decide)

/-- C2: during startup loading, an existing non-empty file of size at
most `MAX_ASSET_SIZE` is read fully into memory and registered (under
`'/' +` its relative path) with its bytes; an existing file strictly
larger than `MAX_ASSET_SIZE` is registered with `null` content and its
disk path; a missing or empty file is not registered at all. -/
theorem claim_C2_asset_loading (gz : Bytes → Bytes) (files : List SrcFile)
    (m : AssetMap) (f : SrcFile)
    (hf : f ∈ files)
    (hnd : (files.map fun g => routeOf g.relativePath).Nodup)
    (h : loadStaticAssets gz files = .ok m) :
    (f.fileExists = true → f.size ≠ 0 → f.size ≤ MAX_ASSET_SIZE →
      ∃ c, f.readContent = .ok c ∧
        m (routeOf f.relativePath) = some (memAsset gz c f.mimeType) ∧
        (memAsset gz c f.mimeType).content = some c ∧
        (memAsset gz c f.mimeType).path = none) ∧
    (f.fileExists = true → f.size ≠ 0 → MAX_ASSET_SIZE < f.size →
      m (routeOf f.relativePath) = some (diskAsset f) ∧
      (diskAsset f).content = none ∧
      (diskAsset f).path = some (joinPath CLIENT_DIR f.relativePath)) ∧
    ((f.fileExists = false ∨ f.size = 0) → m (routeOf f.relativePath) = none) ∧
    ((∀ ch ∈ f.relativePath.toList, ch ≠ '\\') →
      routeOf f.relativePath = "/" ++ f.relativePath) := by
  have hl := loadAux_lookup files emptyAssets m f h hf hnd rfl
  refine ⟨?_, ?_, hl.2.2, ?_⟩
  · intro hex hsz hle
    rcases hl.1 hex hsz hle with ⟨c, hread, hm⟩
    exact ⟨c, hread, hm, rfl, rfl⟩
  · intro hex hsz hgt
    exact ⟨hl.2.1 hex hsz hgt, rfl, rfl⟩
  · intro hch
    unfold routeOf
    have h2 : ∀ a ∈ f.relativePath.toList,
        (fun c => if c = '\\' then '/' else c) a = id a := fun a ha => by
      simp [hch a ha]
    rw [List.map_congr_left h2, List.map_id]
    rfl

set_option maxRecDepth 100000 in
/-- Witness for C2: a one-byte JavaScript file is loaded into memory
and registered under its route. -/
theorem claim_C2_witness :
    ∃ c, (Except.ok [97] : Except String Bytes) = .ok c ∧
      mapSet emptyAssets (routeOf "app.js")
        (memAsset (fun b => b) [97] "text/javascript") (routeOf "app.js") =
        some (memAsset (fun b => b) c "text/javascript") ∧
      (memAsset (fun b => b) c "text/javascript").content = some c ∧
      (memAsset (fun b => b) c "text/javascript").path = none :=
  (claim_C2_asset_loading (fun b => b)
    [⟨"app.js", true, 1, .ok [97], "text/javascript"⟩]
    (mapSet emptyAssets (routeOf "app.js")
      (memAsset (fun b => b) [97] "text/javascript"))
    ⟨"app.js", true, 1, .ok [97], "text/javascript"⟩
    (List.mem_singleton.mpr rfl) (List.nodup_singleton _) rfl).1 rfl
    (by decide) (by decide)

/-- C3: a memory-tier asset's ETag is the double-quoted lowercase-hex
MD5 digest of its content; a request whose `If-None-Match` equals the
ETag receives 304 with an empty body, and any other request for the
asset receives 200 with the `ETag` response header set to that value. -/
theorem claim_C3_etag (gz : Bytes → Bytes) (files : List SrcFile) (m : AssetMap)
    (route : String) (request : Request) (a : Asset) (c : Bytes)
    (h : loadStaticAssets gz files = .ok m)
    (ha : m route = some a)
    (hc : a.content = some c) :
    a.etag = some ("\"" ++ md5Hex c ++ "\"") ∧
    (∀ ch ∈ (md5Hex c).toList, ch ∈ hexChars) ∧
    (request.ifNoneMatch = a.etag →
      serveAsset m request route = some { status := 304, body := none, headers := [] }) ∧
    (request.ifNoneMatch ≠ a.etag →
      ∃ r, serveAsset m request route = some r ∧ r.status = 200 ∧
        ("ETag", "\"" ++ md5Hex c ++ "\"") ∈ r.headers) := by
  have hshape := loadAux_shape files emptyAssets m h
    (by intro r a' h0; simp [emptyAssets] at h0)
  rcases hshape route a ha with ⟨c0, t0, rfl⟩ | ⟨f, rfl⟩
  · have hc0 : c0 = c := by
      have : some c0 = some c := hc
      exact Option.some.inj this
    subst hc0
    refine ⟨rfl, md5Hex_chars c0, ?_, ?_⟩
    · intro hm
      have hm' : request.ifNoneMatch = some (generateETag c0) := hm
      exact serveAsset_mem_304 ha hm'
    · intro hm
      have hm' : request.ifNoneMatch ≠ some (generateETag c0) := hm
      by_cases hg : GZIP_THRESHOLD < c0.length ∧
          strIncludes (request.acceptEncoding.getD "") "gzip" = true
      · refine ⟨_, serveAsset_mem_200_gzip ha hm' hg.1 hg.2, rfl, ?_⟩
        exact List.mem_cons_of_mem _ (List.mem_cons_of_mem _ (List.mem_cons_self _ _))
      · have hng : c0.length ≤ GZIP_THRESHOLD ∨
            strIncludes (request.acceptEncoding.getD "") "gzip" = false := by
          rcases Nat.lt_or_ge GZIP_THRESHOLD c0.length with h1 | h1
          · right
            cases hB : strIncludes (request.acceptEncoding.getD "") "gzip"
            · rfl
            · exact absurd ⟨h1, hB⟩ hg
          · left
            omega
        refine ⟨_, serveAsset_mem_200_id ha hm' hng, rfl, ?_⟩
        exact List.mem_cons_of_mem _ (List.mem_cons_of_mem _ (List.mem_cons_self _ _))
  · exact absurd hc (by simp [diskAsset])

set_option maxRecDepth 1000000 in
/-- Witness for C3: the one-byte asset `[97]` has ETag
`"0cc175b9c0f1b6a831c399e269772661"` (the MD5 of `"a"`), and a request
carrying exactly that `If-None-Match` receives 304. -/
theorem claim_C3_witness :
    (memAsset (fun b => b) [97] "text/javascript").etag =
      some ("\"" ++ md5Hex [97] ++ "\"") ∧
    (∀ ch ∈ (md5Hex [97]).toList, ch ∈ hexChars) ∧
    ((⟨"/app.js", none, some "\"0cc175b9c0f1b6a831c399e269772661\""⟩ :
        Request).ifNoneMatch = (memAsset (fun b => b) [97] "text/javascript").etag →
      serveAsset
        (mapSet emptyAssets (routeOf "app.js")
          (memAsset (fun b => b) [97] "text/javascript"))
        ⟨"/app.js", none, some "\"0cc175b9c0f1b6a831c399e269772661\""⟩ "/app.js" =
        some { status := 304, body := none, headers := [] }) ∧
    ((⟨"/app.js", none, some "\"0cc175b9c0f1b6a831c399e269772661\""⟩ :
        Request).ifNoneMatch ≠ (memAsset (fun b => b) [97] "text/javascript").etag →
      ∃ r, serveAsset
        (mapSet emptyAssets (routeOf "app.js")
          (memAsset (fun b => b) [97] "text/javascript"))
        ⟨"/app.js", none, some "\"0cc175b9c0f1b6a831c399e269772661\""⟩ "/app.js" =
          some r ∧ r.status = 200 ∧
        ("ETag", "\"" ++ md5Hex [97] ++ "\"") ∈ r.headers) :=
  claim_C3_etag (fun b => b)
    [⟨"app.js", true, 1, .ok [97], "text/javascript"⟩]
    (mapSet emptyAssets (routeOf "app.js")
      (memAsset (fun b => b) [97] "text/javascript"))
    "/app.js"
    ⟨"/app.js", none, some "\"0cc175b9c0f1b6a831c399e269772661\""⟩
    (memAsset (fun b => b) [97] "text/javascript") [97] rfl (by decide) rfl

/-- C4 (amended): a gzip variant is precomputed exactly when the
content exceeds `GZIP_THRESHOLD`; the variant is served with a
`Content-Encoding: gzip` header exactly when it exists, the request
accepts gzip, and the request's `If-None-Match` does not match the
ETag (a matching `If-None-Match` short-circuits to 304 with an empty
body); in every other case the identity content is served with no
`Content-Encoding` header. -/
theorem claim_C4_gzip_negotiation (gz : Bytes → Bytes) (files : List SrcFile)
    (m : AssetMap) (route : String) (request : Request) (a : Asset) (c : Bytes)
    (h : loadStaticAssets gz files = .ok m)
    (ha : m route = some a)
    (hc : a.content = some c) :
    (a.gzipped = if GZIP_THRESHOLD < c.length then some (gz c) else none) ∧
    (request.ifNoneMatch = a.etag →
      serveAsset m request route =
        some { status := 304, body := none, headers := [] }) ∧
    (request.ifNoneMatch ≠ a.etag → ∀ g, a.gzipped = some g →
      strIncludes (request.acceptEncoding.getD "") "gzip" = true →
      ∃ r, serveAsset m request route = some r ∧ r.status = 200 ∧
        r.body = some (.bytes g) ∧ ("Content-Encoding", "gzip") ∈ r.headers) ∧
    (request.ifNoneMatch ≠ a.etag →
      (a.gzipped = none ∨
        strIncludes (request.acceptEncoding.getD "") "gzip" = false) →
      ∃ r, serveAsset m request route = some r ∧ r.status = 200 ∧
        r.body = some (.bytes c) ∧ ∀ v, ("Content-Encoding", v) ∉ r.headers) := by
  have hshape := loadAux_shape files emptyAssets m h
    (by intro r a' h0; simp [emptyAssets] at h0)
  rcases hshape route a ha with ⟨c0, t0, rfl⟩ | ⟨f, rfl⟩
  · have hc0 : c0 = c := Option.some.inj hc
    subst hc0
    refine ⟨by rw [memAsset_def], ?_, ?_, ?_⟩
    · intro hm
      have hm' : request.ifNoneMatch = some (generateETag c0) := hm
      exact serveAsset_mem_304 ha hm'
    · intro hm g hgz hacc
      have hm' : request.ifNoneMatch ≠ some (generateETag c0) := hm
      rw [memAsset_def] at hgz
      by_cases hlen : GZIP_THRESHOLD < c0.length
      · rw [if_pos hlen] at hgz
        simp only at hgz
        have hg : g = gz c0 := (Option.some.inj hgz).symm
        subst hg
        refine ⟨_, serveAsset_mem_200_gzip ha hm' hlen hacc, rfl, rfl, ?_⟩
        exact List.mem_cons_of_mem _ (List.mem_cons_of_mem _
          (List.mem_cons_of_mem _ (List.mem_cons_self _ _)))
      · rw [if_neg hlen] at hgz
        cases hgz
    · intro hm hng
      have hm' : request.ifNoneMatch ≠ some (generateETag c0) := hm
      have hng' : c0.length ≤ GZIP_THRESHOLD ∨
          strIncludes (request.acceptEncoding.getD "") "gzip" = false := by
        rcases hng with hg0 | hg0
        · left
          rw [memAsset_def] at hg0
          by_cases hlen : GZIP_THRESHOLD < c0.length
          · rw [if_pos hlen] at hg0
            cases hg0
          · omega
        · right
          exact hg0
      refine ⟨_, serveAsset_mem_200_id ha hm' hng', rfl, rfl, ?_⟩
      intro v hv
      simp at hv
  · exact absurd hc (by simp [diskAsset])

set_option maxRecDepth 1000000 in
/-- Counterexample to C4 as stated: an in-memory asset with a
precomputed gzip variant, and a request that both accepts gzip and
carries a matching `If-None-Match`, is answered with 304 and an empty
body — not with the gzipped body and a `Content-Encoding` header. -/
theorem claim_C4_counterexample :
    loadStaticAssets (fun _ => [0])
      [⟨"big.txt", true, 1025, .ok (List.replicate 1025 97), "text/plain"⟩] =
      .ok (mapSet emptyAssets (routeOf "big.txt")
        (memAsset (fun _ => [0]) (List.replicate 1025 97) "text/plain")) ∧
    (memAsset (fun _ => [0]) (List.replicate 1025 97) "text/plain").gzipped.isSome
      = true ∧
    strIncludes "gzip" "gzip" = true ∧
    serveAsset
      (mapSet emptyAssets (routeOf "big.txt")
        (memAsset (fun _ => [0]) (List.replicate 1025 97) "text/plain"))
      ⟨"/big.txt", some "gzip", some (generateETag (List.replicate 1025 97))⟩
      "/big.txt" =
      some { status := 304, body := none, headers := [] } :=
  ⟨rfl, by simp [memAsset_def, GZIP_THRESHOLD], by decide,
    serveAsset_mem_304 (mapSet_lookup_eq (by decide)) rfl⟩

set_option maxRecDepth 1000000 in
/-- Witness for the amended C4: with no `If-None-Match`, the gzip
variant is served with the `Content-Encoding: gzip` header. -/
theorem claim_C4_witness :
    ∃ r, serveAsset
        (mapSet emptyAssets (routeOf "big.txt")
          (memAsset (fun _ => [0]) (List.replicate 1025 97) "text/plain"))
        ⟨"/big.txt", some "gzip", none⟩ "/big.txt" = some r ∧
      r.status = 200 ∧ r.body = some (.bytes [0]) ∧
      ("Content-Encoding", "gzip") ∈ r.headers :=
  (claim_C4_gzip_negotiation (fun _ => [0])
    [⟨"big.txt", true, 1025, .ok (List.replicate 1025 97), "text/plain"⟩]
    (mapSet emptyAssets (routeOf "big.txt")
      (memAsset (fun _ => [0]) (List.replicate 1025 97) "text/plain"))
    "/big.txt" ⟨"/big.txt", some "gzip", none⟩
    (memAsset (fun _ => [0]) (List.replicate 1025 97) "text/plain")
    (List.replicate 1025 97) rfl (mapSet_lookup_eq (by decide)) rfl).2.2.1
    (by simp [memAsset_def]) [0] (by simp [memAsset_def, GZIP_THRESHOLD]) (by decide)

/-- C8: disk-registered assets (content `null`, a stored disk path)
have no ETag and no gzip variant; every response for them is a plain
200 file response with only the content-type and cache-control
headers — never 304, never an `ETag` or `Content-Encoding` header,
whatever `If-None-Match` or `Accept-Encoding` the request carries. -/
theorem claim_C8_disk_tier (gz : Bytes → Bytes) (files : List SrcFile)
    (m : AssetMap) (route : String) (a : Asset)
    (h : loadStaticAssets gz files = .ok m)
    (ha : m route = some a)
    (hc : a.content = none) :
    a.etag = none ∧ a.gzipped = none ∧
    (∃ p, a.path = some p ∧
      ∀ request : Request,
        serveAsset m request route = some
          { status := 200, body := some (.fileRef p),
            headers := [("Content-Type", a.type),
                        ("Cache-Control", "public, max-age=31536000, immutable")] }) ∧
    (∀ (request : Request) (r : Response),
      serveAsset m request route = some r →
      r.status ≠ 304 ∧ (∀ v, ("ETag", v) ∉ r.headers) ∧
      ∀ v, ("Content-Encoding", v) ∉ r.headers) := by
  have hshape := loadAux_shape files emptyAssets m h
    (by intro r a' h0; simp [emptyAssets] at h0)
  rcases hshape route a ha with ⟨c0, t0, rfl⟩ | ⟨f, rfl⟩
  · exact absurd hc (by simp [memAsset_def])
  · refine ⟨rfl, rfl,
      ⟨joinPath CLIENT_DIR f.relativePath, rfl, fun request => serveAsset_disk ha⟩, ?_⟩
    intro request r hr
    rw [serveAsset_disk ha] at hr
    have hr2 := Option.some.inj hr
    subst hr2
    refine ⟨?_, ?_, ?_⟩
    · intro hh
      simp at hh
    · intro v hv
      simp at hv
    · intro v hv
      simp at hv

/-- Witness for C8: a file one byte over `MAX_ASSET_SIZE` is served
from disk with only the content-type and cache-control headers. -/
theorem claim_C8_witness :
    (diskAsset ⟨"video.mp4", true, 5242881, .ok [], "video/mp4"⟩).etag = none ∧
    (diskAsset ⟨"video.mp4", true, 5242881, .ok [], "video/mp4"⟩).gzipped = none ∧
    (∃ p, (diskAsset ⟨"video.mp4", true, 5242881, .ok [], "video/mp4"⟩).path = some p ∧
      ∀ request : Request,
        serveAsset
          (mapSet emptyAssets (routeOf "video.mp4")
            (diskAsset ⟨"video.mp4", true, 5242881, .ok [], "video/mp4"⟩))
          request "/video.mp4" = some
          { status := 200, body := some (.fileRef p),
            headers := [("Content-Type",
                          (diskAsset ⟨"video.mp4", true, 5242881, .ok [], "video/mp4"⟩).type),
                        ("Cache-Control", "public, max-age=31536000, immutable")] }) ∧
    (∀ (request : Request) (r : Response),
      serveAsset
        (mapSet emptyAssets (routeOf "video.mp4")
          (diskAsset ⟨"video.mp4", true, 5242881, .ok [], "video/mp4"⟩))
        request "/video.mp4" = some r →
      r.status ≠ 304 ∧ (∀ v, ("ETag", v) ∉ r.headers) ∧
      ∀ v, ("Content-Encoding", v) ∉ r.headers) :=
  claim_C8_disk_tier (fun b => b)
    [⟨"video.mp4", true, 5242881, .ok [], "video/mp4"⟩]
    (mapSet emptyAssets (routeOf "video.mp4")
      (diskAsset ⟨"video.mp4", true, 5242881, .ok [], "video/mp4"⟩))
    "/video.mp4" (diskAsset ⟨"video.mp4", true, 5242881, .ok [], "video/mp4"⟩)
    rfl (by decide) rfl

/-- Counterexample to C5 as stated: `incrementViewCount` issues its
POST with no headers at all — in particular no `X-CSRFToken`. -/
theorem claim_C5_counterexample :
    (incrementViewCount "hello").method = "POST" ∧
    (incrementViewCount "hello").headers = [] ∧
    (incrementViewCount "hello").headers.lookup "X-CSRFToken" = none :=
  ⟨rfl, rfl, rfl⟩

/-- C5 (amended): every state-changing request of the blog API client
except `incrementViewCount` — the POST/PATCH/DELETE of `createPost`,
`updatePost`, `deletePost`, `uploadBlogImage` and the category and tag
CRUD — carries an `X-CSRFToken` header with the CSRF cookie value (the
empty string when the cookie is absent); `incrementViewCount`'s POST
carries no headers. -/
theorem claim_C5_csrf_headers (env : Env) (slug : String) (id : Nat)
    (hasFeaturedImage hasOgImage : Bool) :
    (createPost env hasFeaturedImage hasOgImage).headers.lookup "X-CSRFToken" =
      some ((getCSRFToken env).getD "") ∧
    (updatePost env slug hasFeaturedImage hasOgImage).headers.lookup "X-CSRFToken" =
      some ((getCSRFToken env).getD "") ∧
    (deletePost env slug).headers.lookup "X-CSRFToken" =
      some ((getCSRFToken env).getD "") ∧
    (uploadBlogImage env).headers.lookup "X-CSRFToken" =
      some ((getCSRFToken env).getD "") ∧
    (createCategory env).headers.lookup "X-CSRFToken" =
      some ((getCSRFToken env).getD "") ∧
    (updateCategory env id).headers.lookup "X-CSRFToken" =
      some ((getCSRFToken env).getD "") ∧
    (deleteCategory env id).headers.lookup "X-CSRFToken" =
      some ((getCSRFToken env).getD "") ∧
    (createTag env).headers.lookup "X-CSRFToken" =
      some ((getCSRFToken env).getD "") ∧
    (updateTag env id).headers.lookup "X-CSRFToken" =
      some ((getCSRFToken env).getD "") ∧
    (deleteTag env id).headers.lookup "X-CSRFToken" =
      some ((getCSRFToken env).getD "") ∧
    (createPost env hasFeaturedImage hasOgImage).method = "POST" ∧
    (updatePost env slug hasFeaturedImage hasOgImage).method = "PATCH" ∧
    (deletePost env slug).method = "DELETE" ∧
    (uploadBlogImage env).method = "POST" ∧
    (incrementViewCount slug).method = "POST" ∧
    (incrementViewCount slug).headers = [] := by
  cases hasFeaturedImage <;> cases hasOgImage <;>
    exact ⟨rfl, rfl, rfl, rfl, rfl, rfl, rfl, rfl, rfl, rfl, rfl, rfl, rfl,
      rfl, rfl, rfl⟩

/-! ### Theme loader lemmas -/

theorem normalizeThemeName_success (d : ThemeData) :
    (normalizeThemeName d).success = d.success := by
  unfold normalizeThemeName
  split <;> rfl

theorem normalizeSuccess_theme_name (d : ThemeData) :
    (normalizeSuccess d).theme_name = d.theme_name := by
  unfold normalizeSuccess
  split <;> rfl

theorem normalizeThemeData_success {d : ThemeData} (h : d.success = none) :
    (normalizeThemeData d).success = some true := by
  unfold normalizeThemeData normalizeSuccess
  rw [if_pos (by rw [normalizeThemeName_success]; exact h)]

theorem normalizeThemeData_name {d : ThemeData} (hv : validateThemeData d = true) :
    (normalizeThemeData d).theme_name =
      (if strTruthy d.theme_name = true then d.theme_name else d.name) ∧
    strTruthy (normalizeThemeData d).theme_name = true := by
  unfold validateThemeData at hv
  simp only [Bool.and_eq_true, Bool.or_eq_true] at hv
  have hname : (normalizeThemeData d).theme_name = (normalizeThemeName d).theme_name :=
    normalizeSuccess_theme_name _
  by_cases hT : strTruthy d.theme_name = true
  · have hfix : (normalizeThemeName d).theme_name = d.theme_name := by
      unfold normalizeThemeName
      rw [if_neg fun hc => hc.1 hT]
    constructor
    · rw [hname, hfix, if_pos hT]
    · rw [hname, hfix]
      exact hT
  · have hN : strTruthy d.name = true := by
      rcases hv.1.1 with h1 | h1
      · exact absurd h1 hT
      · exact h1
    have hfix : (normalizeThemeName d).theme_name = d.name := by
      unfold normalizeThemeName
      rw [if_pos ⟨hT, hN⟩]
    constructor
    · rw [hname, hfix, if_neg hT]
    · rw [hname, hfix]
      exact hN

theorem loadThemes_lookup :
    ∀ (imports : List (String × ThemeData)) (reg0 : Registry) (n : String)
      (t : ThemeData),
    loadThemes imports reg0 n = some t →
    reg0 n = some t ∨
      ∃ d, (n, d) ∈ imports ∧ validateThemeData d = true ∧
        t = normalizeThemeData d := by
  intro imports
  induction imports with
  | nil => intro reg0 n t h; exact Or.inl h
  | cons p rest ih =>
    intro reg0 n t h
    have h2 : loadThemes rest
        (if validateThemeData p.2 then regSet reg0 p.1 (normalizeThemeData p.2)
         else reg0) n = some t := h
    rcases ih _ n t h2 with h0 | ⟨d, hd, hv, ht⟩
    · by_cases hval : validateThemeData p.2 = true
      · rw [if_pos hval] at h0
        unfold regSet at h0
        by_cases hn : n = p.1
        · rw [if_pos hn] at h0
          refine Or.inr ⟨p.2, ?_, hval, (Option.some.inj h0).symm⟩
          rw [hn]
          exact List.mem_cons_self _ _
        · rw [if_neg hn] at h0
          exact Or.inl h0
      · rw [if_neg hval] at h0
        exact Or.inl h0
    · exact Or.inr ⟨d, List.mem_cons_of_mem p hd, hv, ht⟩

theorem loadThemes_skip :
    ∀ (imports : List (String × ThemeData)) (reg0 : Registry) (n : String),
    (∀ d, (n, d) ∈ imports → validateThemeData d = false) →
    loadThemes imports reg0 n = reg0 n := by
  intro imports
  induction imports with
  | nil => intro reg0 n _; rfl
  | cons p rest ih =>
    intro reg0 n hinv
    show loadThemes rest
        (if validateThemeData p.2 then regSet reg0 p.1 (normalizeThemeData p.2)
         else reg0) n = reg0 n
    rw [ih _ n fun d hd => hinv d (List.mem_cons_of_mem p hd)]
    by_cases hval : validateThemeData p.2 = true
    · by_cases hn : n = p.1
      · exfalso
        have hmem : (n, p.2) ∈ p :: rest := by
          rw [hn]
          exact List.mem_cons_self _ _
        rw [hinv p.2 hmem] at hval
        exact absurd hval (by decide)
      · rw [if_pos hval]
        unfold regSet
        rw [if_neg hn]
    · rw [if_neg hval]

/-- C6: every registry entry produced by `loadThemes` (over theme files
with no explicit `success` field) either pre-existed or comes from a
validated import, inserted as its normalization — with a truthy
`theme_name` (falling back to `name`) and `success = true`; any
entry failing validation is never inserted. -/
theorem claim_C6_theme_loading (imports : List (String × ThemeData))
    (reg0 : Registry) (hsucc : importsHaveNoSuccessField imports) :
    (∀ n t, loadThemes imports reg0 n = some t →
      reg0 n = some t ∨
      ∃ d, (n, d) ∈ imports ∧ validateThemeData d = true ∧
        t = normalizeThemeData d ∧ strTruthy t.theme_name = true ∧
        t.theme_name =
          (if strTruthy d.theme_name = true then d.theme_name else d.name) ∧
        t.success = some true) ∧
    (∀ n, (∀ d, (n, d) ∈ imports → validateThemeData d = false) →
      loadThemes imports reg0 n = reg0 n) := by
  constructor
  · intro n t h
    rcases loadThemes_lookup imports reg0 n t h with h0 | ⟨d, hd, hv, ht⟩
    · exact Or.inl h0
    · subst ht
      rcases normalizeThemeData_name hv with ⟨h1, h2⟩
      exact Or.inr ⟨d, hd, hv, rfl, h2, h1, normalizeThemeData_success (hsucc (n, d) hd)⟩
  · intro n hn
    exact loadThemes_skip imports reg0 n hn

/-- Witness for C6: of two imports, the well-formed one is inserted
normalized (with `success = true`), and the name of the invalid one
stays unregistered. -/
theorem claim_C6_witness :
    ((fun _ => none : Registry) "ok" =
        some (normalizeThemeData
          ⟨some "ok-theme", none, some "OK", some ⟨some [], some [], some []⟩, none⟩) ∨
      ∃ d, ("ok", d) ∈
          ([("ok", ⟨some "ok-theme", none, some "OK",
              some ⟨some [], some [], some []⟩, none⟩),
            ("bad", ⟨none, none, none, none, none⟩)] :
            List (String × ThemeData)) ∧
        validateThemeData d = true ∧
        normalizeThemeData
            (⟨some "ok-theme", none, some "OK",
              some ⟨some [], some [], some []⟩, none⟩ : ThemeData) =
          normalizeThemeData d ∧
        strTruthy (normalizeThemeData
          (⟨some "ok-theme", none, some "OK",
            some ⟨some [], some [], some []⟩, none⟩ : ThemeData)).theme_name = true ∧
        (normalizeThemeData
          (⟨some "ok-theme", none, some "OK",
            some ⟨some [], some [], some []⟩, none⟩ : ThemeData)).theme_name =
          (if strTruthy d.theme_name = true then d.theme_name else d.name) ∧
        (normalizeThemeData
          (⟨some "ok-theme", none, some "OK",
            some ⟨some [], some [], some []⟩, none⟩ : ThemeData)).success =
          some true) ∧
    loadThemes
      ([("ok", ⟨some "ok-theme", none, some "OK",
          some ⟨some [], some [], some []⟩, none⟩),
        ("bad", ⟨none, none, none, none, none⟩)] : List (String × ThemeData))
      (fun _ => none) "bad" = (fun _ => none : Registry) "bad" := by
  have h := claim_C6_theme_loading
    ([("ok", ⟨some "ok-theme", none, some "OK",
        some ⟨some [], some [], some []⟩, none⟩),
      ("bad", ⟨none, none, none, none, none⟩)] : List (String × ThemeData))
    (fun _ => none)
    (by intro p hp; fin_cases hp <;> rfl)
  refine ⟨h.1 "ok" _ rfl, h.2 "bad" ?_⟩
  intro d hd
  rcases List.mem_cons.mp hd with h1 | h1
  · have hfst : ("bad" : String) = "ok" := congrArg Prod.fst h1
    exact absurd hfst (by decide)
  · have h2 : d = ⟨none, none, none, none, none⟩ :=
      congrArg Prod.snd (List.mem_singleton.mp h1)
    subst h2
    rfl

end StarterBlog

